import Mathlib

/-!
Shallow embedding of the BrandGuard backend (Python) in Lean 4.

The embedding covers:
* the severity banding used by the mention pipeline and by the full scan
  (backend/app/services/agent/orchestrator.py),
* the Neo4j graph store operations and read queries
  (backend/app/services/neo4j/client.py, backend/app/api/graph.py),
* the asynchronous job pipeline and its job registry
  (backend/app/services/agent/orchestrator.py, backend/app/api/agent.py).

Numeric scores are modelled as rationals; Python dictionaries with optional
keys are modelled as structures with Option fields; Python exceptions are
modelled with Except.  Cypher queries are translated clause by clause into
list comprehensions over an explicit graph state.
-/

namespace BrandGuard

/-- Severity banding of the score_severity step of
`BrandGuardPipeline.process_mention` (orchestrator.py lines 99-106).
The accuracy is on a 0-1 scale; the chain mirrors the Python
`if accuracy < 0.6 ... elif accuracy < 0.8 ... elif accuracy < 0.9`. -/
def scoreSeverity (accuracy : ℚ) : String :=
  if accuracy < 6/10 then "CRITICAL"
  else if accuracy < 8/10 then "HIGH"
  else if accuracy < 9/10 then "MEDIUM"
  else "LOW"

/-- Severity banding of `AgentOrchestrator.run_full_scan` step 3
(orchestrator.py lines 436-443), on a 0-100 scale. -/
def fullScanSeverity (score : ℚ) : String :=
  if score < 40 then "critical"
  else if score < 60 then "high"
  else if score < 80 then "medium"
  else "low"

/-- Python `round` to the nearest integer, ties to even (banker rounding),
modelling `round(x)` on an exact rational value. -/
def pyRoundInt (q : ℚ) : ℤ :=
  let f := ⌊q⌋
  let r := q - (f : ℚ)
  if r < 1/2 then f
  else if (1/2 : ℚ) < r then f + 1
  else if f % 2 = 0 then f else f + 1

/-- Python `round(x, 1)`: round to one decimal place, ties to even. -/
def pyRound1 (q : ℚ) : ℚ := (pyRoundInt (q * 10) : ℚ) / 10

/-- Python truthiness-based `a or b` for an optional string: `None` and the
empty string both fall through to the default. -/
def pyOrStr (a : Option String) (b : String) : String :=
  match a with
  | some s => if s = "" then b else s
  | none => b

/-- Truthiness of an optional string (Python `if x:`). -/
def truthy : Option String → Bool
  | some s => s ≠ ""
  | none => false

/-- The string value of an optional string, defaulting to the empty string. -/
def oval (a : Option String) : String := a.getD ""

/-- Characters allowed in a URL scheme after the leading letter
(RFC 3986, as enforced by `urllib.parse`). -/
def isSchemeChar (c : Char) : Bool :=
  c.isAlphanum || c == '+' || c == '-' || c == '.'

/-- The netloc component of a URL in the sense of `urllib.parse.urlparse`:
the text after a leading `//` (possibly preceded by a valid `scheme:`),
up to the next `/`, `?` or `#`; empty when the URL has no `//` part. -/
def urlNetloc (url : String) : String :=
  let rest : Option String :=
    if url.startsWith "//" then some (url.drop 2)
    else
      match url.splitOn ":" with
      | scheme :: restParts =>
        if restParts ≠ [] ∧ scheme ≠ "" ∧ scheme.all isSchemeChar ∧
            (scheme.toList.headD 'a').isAlpha then
          let after := String.intercalate ":" restParts
          if after.startsWith "//" then some (after.drop 2) else none
        else none
      | [] => none
  match rest with
  | none => ""
  | some r => r.takeWhile (fun c => !(c == '/' || c == '?' || c == '#'))

/-- `Neo4jClient._extract_domain` (client.py lines 417-423):
`urlparse(url).netloc or url`. -/
def extractDomain (url : String) : String :=
  let n := urlNetloc url
  if n = "" then url else n

/-! ## Graph store state

The Neo4j property graph reachable by the client: node lists per label and
edge lists per relationship type (edges reference nodes by their unique
keys: Mention.id, Brand.id, Platform.name, Source.url, Correction.id).
`init_schema` (client.py lines 68-90) installs uniqueness constraints on
those keys; `CREATE` of a node whose key already exists therefore fails,
which the embedding reports as `Except.error`. -/

structure BrandNode where
  id : String
  name : String
deriving Repr, DecidableEq

structure MentionNode where
  id : String
  claim : String
  accuracy_score : ℚ
  is_accurate : Bool
  severity : String
  detected_at : String
deriving Repr, DecidableEq

structure SourceNode where
  url : String
  domain : String
deriving Repr, DecidableEq

structure CorrectionNode where
  id : String
  content : String
  ctype : String
  status : String
  created_at : String
deriving Repr, DecidableEq

structure GraphState where
  brands : List BrandNode
  platforms : List String
  mentions : List MentionNode
  sources : List SourceNode
  corrections : List CorrectionNode
  about : List (String × String)
  found_on : List (String × String)
  sourced_from : List (String × String)
  feeds : List (String × String)
  corrects : List (String × String)
  for_brand : List (String × String)
deriving Repr, DecidableEq

def emptyGraph : GraphState := ⟨[], [], [], [], [], [], [], [], [], [], []⟩

/-- Input dictionary of `Neo4jClient.store_mention` (client.py lines 94-100).
Optional fields model keys the caller may omit (`dict.get` defaults). -/
structure MentionInput where
  id : Option String := none
  brand_id : String
  brand_name : Option String := none
  platform : String
  claim : String
  accuracy_score : Option ℚ := none
  severity : Option String := none
  detected_at : Option String := none
  source_urls : List String := []
deriving Repr, DecidableEq

structure StoreMentionResult where
  neo4j_id : Option String
  mention_id : String
  relationships_created : Nat
deriving Repr, DecidableEq

/-- `MERGE (b:Brand {id: $brand_id}) ON CREATE SET b.name = $brand_name`
(client.py lines 106-107). -/
def mergeBrand (g : GraphState) (bid bname : String) : GraphState :=
  if g.brands.any (fun b => b.id == bid) then g
  else { g with brands := g.brands ++ [⟨bid, bname⟩] }

/-- `MERGE (p:Platform {name: $platform})` (client.py line 108). -/
def mergePlatform (g : GraphState) (p : String) : GraphState :=
  if g.platforms.contains p then g
  else { g with platforms := g.platforms ++ [p] }

/-- The per-source-url query of `store_mention` (client.py lines 137-156):
`MATCH` mention and platform, `MERGE` the Source node (setting `domain`
only on first creation), `CREATE` a SOURCED_FROM edge per matched row and
`MERGE` a FEEDS edge.  When either `MATCH` finds nothing the query matches
zero rows and writes nothing at all. -/
def storeMentionSource (g : GraphState) (mention_id platform url : String) :
    GraphState :=
  let rows :=
    if g.platforms.contains platform then
      (g.mentions.filter (fun m => m.id == mention_id)).length
    else 0
  if rows = 0 then g
  else
    let g1 :=
      if g.sources.any (fun s => s.url == url) then g
      else { g with sources := g.sources ++ [⟨url, extractDomain url⟩] }
    let g2 := { g1 with
      sourced_from := g1.sourced_from ++ List.replicate rows (mention_id, url) }
    if g2.feeds.contains (url, platform) then g2
    else { g2 with feeds := g2.feeds ++ [(url, platform)] }

/-- `Neo4jClient.store_mention` (client.py lines 94-162).  `genId` and
`genDate` stand for the freshly generated `uuid4` and current timestamp
used when the caller omits `id` / `detected_at`.  The opaque Neo4j
`elementId` of the created node is modelled as `"element-" ++ id`. -/
def store_mention (g : GraphState) (mention : MentionInput)
    (genId genDate : String) :
    Except String (GraphState × StoreMentionResult) :=
  let mention_id := pyOrStr mention.id genId
  let detected_at := pyOrStr mention.detected_at genDate
  let accuracy := mention.accuracy_score.getD 0
  let is_accurate : Bool := accuracy ≥ 70
  if g.mentions.any (fun m => m.id == mention_id) then
    Except.error "ConstraintError: Mention.id already exists"
  else
    let g2 := mergePlatform
      (mergeBrand g mention.brand_id (mention.brand_name.getD mention.brand_id))
      mention.platform
    let node : MentionNode :=
      ⟨mention_id, mention.claim, accuracy, is_accurate,
       mention.severity.getD "medium", detected_at⟩
    let g3 := { g2 with
      mentions := g2.mentions ++ [node],
      about := g2.about ++ [(mention_id, mention.brand_id)],
      found_on := g2.found_on ++ [(mention_id, mention.platform)] }
    let g4 := mention.source_urls.foldl
      (fun acc url => storeMentionSource acc mention_id mention.platform url) g3
    Except.ok (g4,
      ⟨some ("element-" ++ mention_id), mention_id,
       2 + 2 * mention.source_urls.length⟩)

/-- Input dictionary of `Neo4jClient.store_correction`
(client.py lines 166-192). -/
structure CorrectionInput where
  mention_id : String
  id : Option String := none
  content : Option String := none
  correction_type : Option String := none
  status : Option String := none
  created_at : Option String := none
deriving Repr, DecidableEq

structure StoreCorrectionResult where
  neo4j_id : Option String
  correction_id : String
deriving Repr, DecidableEq

/-- Rows of `MATCH (m:Mention {id: $mention_id}) MATCH (m)-[:ABOUT]->(b:Brand)`:
one row per matched mention node, ABOUT edge and brand node, carrying the
mention id and the brand id. -/
def correctionMatchRows (g : GraphState) (mention_id : String) :
    List (String × String) :=
  (g.mentions.filter (fun m => m.id == mention_id)).flatMap (fun m =>
    (g.about.filter (fun e => e.1 == m.id)).filterMap (fun e =>
      if g.brands.any (fun b => b.id == e.2) then some (m.id, e.2) else none))

/-- `Neo4jClient.store_correction` (client.py lines 166-195).  The Cypher
`MATCH ... CREATE ...` creates nothing when the mention does not exist
(zero rows), and the Python wrapper then returns `neo4j_id = None` without
raising; with exactly one matched row the Correction node and its two
edges are created. -/
def store_correction (g : GraphState) (c : CorrectionInput)
    (genId genDate : String) :
    Except String (GraphState × StoreCorrectionResult) :=
  let correction_id := pyOrStr c.id genId
  let created_at := pyOrStr c.created_at genDate
  match correctionMatchRows g c.mention_id with
  | [] => Except.ok (g, ⟨none, correction_id⟩)
  | [(mid, bid)] =>
    if g.corrections.any (fun k => k.id == correction_id) then
      Except.error "ConstraintError: Correction.id already exists"
    else
      let node : CorrectionNode :=
        ⟨correction_id, c.content.getD "", c.correction_type.getD "blog_post",
         c.status.getD "draft", created_at⟩
      Except.ok
        ({ g with
            corrections := g.corrections ++ [node],
            corrects := g.corrects ++ [(correction_id, mid)],
            for_brand := g.for_brand ++ [(correction_id, bid)] },
         ⟨some ("element-" ++ correction_id), correction_id⟩)
  | _ =>
    Except.error "ConstraintError: duplicate Correction.id across rows"

/-! ## Read queries (Aggregation Engine) -/

/-- Rows of
`MATCH (m:Mention)-[:ABOUT]->(b:Brand {id}) MATCH (m)-[:FOUND_ON]->(p:Platform)`
(client.py lines 201-209 and api/graph.py lines 116-118): one row per
mention node, ABOUT edge to the brand and FOUND_ON edge to an existing
platform. -/
def brandMentionPlatformRows (g : GraphState) (brand_id : String) :
    List (MentionNode × String) :=
  if g.brands.any (fun b => b.id == brand_id) then
    g.mentions.flatMap (fun m =>
      (g.about.filter (fun e => e.1 == m.id && e.2 == brand_id)).flatMap
        (fun _ =>
          (g.found_on.filter (fun e => e.1 == m.id)).filterMap (fun e =>
            if g.platforms.contains e.2 then some (m, e.2) else none)))
  else []

/-- First-occurrence-ordered list of distinct values (grouping keys of a
Cypher aggregating RETURN). -/
def firstKeys (xs : List String) : List String :=
  xs.foldl (fun ks k => if ks.contains k then ks else ks ++ [k]) []

/-- One aggregated Cypher row of the `get_brand_health` query
(client.py lines 201-209), grouped by platform name. -/
structure HealthRow where
  platform : String
  mentions : Nat
  avg_accuracy : ℚ
  accurate_count : Nat
  threats : Nat
deriving Repr, DecidableEq

def healthRows (g : GraphState) (brand_id : String) : List HealthRow :=
  let pairs := brandMentionPlatformRows g brand_id
  (firstKeys (pairs.map (·.2))).map (fun k =>
    let sub := pairs.filter (fun pr => pr.2 == k)
    { platform := k,
      mentions := sub.length,
      avg_accuracy := (sub.map (fun pr => pr.1.accuracy_score)).sum / sub.length,
      accurate_count := (sub.filter (fun pr => pr.1.is_accurate)).length,
      threats := (sub.filter (fun pr =>
        pr.1.severity == "high" || pr.1.severity == "critical")).length })

/-- Return value of `Neo4jClient.get_brand_health`. `by_platform` maps a
platform name to its rounded average accuracy and mention count. -/
structure BrandHealth where
  overall_accuracy : ℚ
  total_mentions : Nat
  accurate_mentions : Nat
  threats : Nat
  by_platform : List (String × ℚ × Nat)
deriving Repr, DecidableEq

/-- `Neo4jClient.get_brand_health` (client.py lines 199-236): per-platform
rows from the graph, then the Python aggregation loop computing the
mention-count-weighted overall accuracy
`round(weighted_sum / total_mentions, 1)` (0 when there are no mentions). -/
def get_brand_health (g : GraphState) (brand_id : String) : BrandHealth :=
  let rows := healthRows g brand_id
  let total := (rows.map (·.mentions)).sum
  let weighted := (rows.map (fun r => r.avg_accuracy * (r.mentions : ℚ))).sum
  { overall_accuracy := if total = 0 then 0 else pyRound1 (weighted / total),
    total_mentions := total,
    accurate_mentions := (rows.map (·.accurate_count)).sum,
    threats := (rows.map (·.threats)).sum,
    by_platform := rows.map (fun r => (r.platform, pyRound1 r.avg_accuracy, r.mentions)) }

/-- Python `str.title()`: the first alphabetic character of every word is
uppercased, alphabetic characters following an alphabetic character are
lowercased. -/
def pyTitleAux : Bool → List Char → List Char
  | _, [] => []
  | prevAlpha, c :: cs =>
    (if c.isAlpha then (if prevAlpha then c.toLower else c.toUpper) else c) ::
      pyTitleAux c.isAlpha cs

def pyTitle (s : String) : String := ⟨pyTitleAux false s.toList⟩

/-- Python float formatting `f"{x:.0f}"` on an exact rational value:
round to the nearest integer, ties to even, rendered in decimal. -/
def fmt0f (q : ℚ) : String := toString (pyRoundInt q)

/-- One aggregated row of the threats query (api/graph.py lines 116-126),
grouped by the RETURN key (mention node fields and platform name) with
`collect(DISTINCT s.url)` over the optionally matched sources. -/
structure ThreatRow where
  mention : MentionNode
  platform : String
  source_urls : List String
deriving Repr, DecidableEq

/-- Rows of the Cypher query in `get_brand_threats`.  The `WHERE
m.accuracy_score < 70` clause is attached to the preceding `OPTIONAL
MATCH (m)-[:SOURCED_FROM]->(s:Source)`, so it only decides whether the
optional source binding succeeds: a mention row with accuracy 70 or more
is kept, merely with a null source (empty collected url list).  Rows are
then sorted by accuracy ascending (stable) and truncated to `limit`. -/
def threatRows (g : GraphState) (brand_id : String) (limit : Nat) :
    List ThreatRow :=
  let pairs := brandMentionPlatformRows g brand_id
  let grouped := pairs.map (fun pr =>
    let srcs :=
      if pr.1.accuracy_score < 70 then
        firstKeys ((g.sourced_from.filter (fun e => e.1 == pr.1.id)).filterMap
          (fun e => if g.sources.any (fun s => s.url == e.2) then some e.2
                    else none))
      else []
    ThreatRow.mk pr.1 pr.2 srcs)
  (grouped.mergeSort (fun a b =>
    a.mention.accuracy_score ≤ b.mention.accuracy_score)).take limit

/-- One dashboard threat record built by the Python loop in
`get_brand_threats` (api/graph.py lines 128-142). -/
structure ThreatRec where
  id : String
  severity : String
  platform : String
  claim : String
  context : String
  accuracy_score : ℚ
  status : String
  detected_at : String
  source_url : String
  suggested_correction : String
deriving Repr, DecidableEq

/-- `get_brand_threats` (api/graph.py lines 111-143): the query rows mapped
to dashboard threat records.  The endpoint returns the list together with
its length as `total`. -/
def get_brand_threats (g : GraphState) (brand_id : String) (limit : Nat) :
    List ThreatRec :=
  (threatRows g brand_id limit).map (fun r =>
    { id := r.mention.id,
      severity := r.mention.severity,
      platform := pyTitle (pyOrStr (some r.platform) "unknown"),
      claim := r.mention.claim,
      context := "AI platform " ++ pyTitle (pyOrStr (some r.platform) "unknown") ++
        " made this claim about your brand with " ++
        fmt0f r.mention.accuracy_score ++ "% accuracy.",
      accuracy_score := pyRound1 r.mention.accuracy_score,
      status := "open",
      detected_at := r.mention.detected_at,
      source_url := if r.source_urls ≠ [] then r.source_urls.headD "" else "",
      suggested_correction := "This claim has a low accuracy score (" ++
        fmt0f r.mention.accuracy_score ++
        "%). Investigate and publish a correction." })

/-! ## get_brand_network (client.py lines 266-399) -/

/-- A visualization node (the values of the Python `nodes` dict). -/
structure NodeRec where
  id : String
  ntype : String
  label : String
  color : String
  accuracy : Option ℚ
deriving Repr, DecidableEq

/-- A visualization edge (`{"source", "target", "type"}`). -/
structure EdgeRec where
  source : String
  target : String
  rtype : String
deriving Repr, DecidableEq

/-- Insert-or-overwrite into the ordered `nodes` dict (Python dict
semantics: overwrite keeps the original insertion position). -/
def upsertNode (ns : List NodeRec) (n : NodeRec) : List NodeRec :=
  if ns.any (fun m => m.id == n.id) then
    ns.map (fun m => if m.id == n.id then n else m)
  else ns ++ [n]

/-- A row of the relationship query `rel_query` (client.py lines 345-354);
every column is nullable because each pattern is an `OPTIONAL MATCH`. -/
structure RelRow where
  mid : Option String
  pname : Option String
  surl : Option String
  p2name : Option String
  cid : Option String
deriving Repr, DecidableEq

/-- An `OPTIONAL MATCH` over candidate bindings: a null row when nothing
matches. -/
def optRows {α : Type} (xs : List α) : List (Option α) :=
  if xs.isEmpty then [none] else xs.map some

/-- The rows produced by `rel_query`: nested optional matches for
ABOUT, FOUND_ON, SOURCED_FROM, FEEDS (from the bound source) and CORRECTS
(into the bound mention). -/
def relRows (g : GraphState) (brand_id : String) : List RelRow :=
  if g.brands.any (fun b => b.id == brand_id) then
    (optRows (g.mentions.filter (fun m =>
        g.about.contains (m.id, brand_id)))).flatMap (fun m? =>
      match m? with
      | none => [⟨none, none, none, none, none⟩]
      | some m =>
        (optRows ((g.found_on.filter (fun e => e.1 == m.id)).filterMap
            (fun e => if g.platforms.contains e.2 then some e.2 else none))).flatMap
          (fun p? =>
          (optRows ((g.sourced_from.filter (fun e => e.1 == m.id)).filterMap
              (fun e => if g.sources.any (fun s => s.url == e.2) then some e.2
                        else none))).flatMap (fun s? =>
            (optRows (match s? with
                | none => []
                | some u =>
                  (g.feeds.filter (fun e => e.1 == u)).filterMap (fun e =>
                    if g.platforms.contains e.2 then some e.2 else none))).flatMap
              (fun p2? =>
              (optRows ((g.corrects.filter (fun e => e.2 == m.id)).filterMap
                  (fun e => if g.corrections.any (fun c => c.id == e.1) then
                      some e.1 else none))).map (fun c? =>
                ⟨some m.id, p?, s?, p2?, c?⟩)))))
  else []

/-- Append an edge and record its dedup key when `guard` holds and the key
is not already in the shared seen set (the
`if <truthy> and key not in seen_edges` pattern of client.py lines
358-397). -/
def addEdge (st : List EdgeRec × List (String × String)) (guard : Bool)
    (key : String × String) (e : EdgeRec) :
    List EdgeRec × List (String × String) :=
  if guard && !(st.2.contains key) then (st.1 ++ [e], st.2 ++ [key])
  else st

/-- One iteration of the edge-assembly loop over `rels`
(client.py lines 358-397), mirroring the four guarded appends in source
order.  All four edge kinds share one `seen_edges` set and the keys carry
no relationship type. -/
def assembleStep (st : List EdgeRec × List (String × String)) (r : RelRow) :
    List EdgeRec × List (String × String) :=
  let st :=
    if truthy r.mid then
      let mid := oval r.mid
      let st := addEdge st (truthy r.pname) ("mention-" ++ mid, oval r.pname)
        ⟨"mention-" ++ mid, "platform-" ++ oval r.pname, "FOUND_ON"⟩
      addEdge st (truthy r.surl) ("mention-" ++ mid, oval r.surl)
        ⟨"mention-" ++ mid, "source-" ++ oval r.surl, "SOURCED_FROM"⟩
    else st
  let st := addEdge st (truthy r.surl && truthy r.p2name)
    (oval r.surl, oval r.p2name)
    ⟨"source-" ++ oval r.surl, "platform-" ++ oval r.p2name, "FEEDS"⟩
  addEdge st (truthy r.cid && truthy r.mid) (oval r.cid, oval r.mid)
    ⟨"correction-" ++ oval r.cid, "mention-" ++ oval r.mid, "CORRECTS"⟩

/-- The NODE_COLORS table (client.py lines 19-26). -/
def nodeColor : String → String
  | "Brand" => "#3B82F6"
  | "Platform" => "#10B981"
  | "Mention_accurate" => "#6B7280"
  | "Mention_inaccurate" => "#EF4444"
  | "Source" => "#F59E0B"
  | "Correction" => "#8B5CF6"
  | _ => ""

/-- Distinct mentions of the brand collected by the first `get_brand_network`
query (`collect(DISTINCT m)`), in graph order. -/
def networkMentions (g : GraphState) (brand_id : String) : List MentionNode :=
  g.mentions.filter (fun m => g.about.contains (m.id, brand_id))

/-- Distinct platforms reachable from those mentions via FOUND_ON. -/
def networkPlatforms (g : GraphState) (brand_id : String) : List String :=
  firstKeys ((networkMentions g brand_id).flatMap (fun m =>
    (g.found_on.filter (fun e => e.1 == m.id)).filterMap (fun e =>
      if g.platforms.contains e.2 then some e.2 else none)))

/-- Distinct sources reachable from those mentions via SOURCED_FROM. -/
def networkSources (g : GraphState) (brand_id : String) : List SourceNode :=
  (firstKeys ((networkMentions g brand_id).flatMap (fun m =>
    (g.sourced_from.filter (fun e => e.1 == m.id)).map (·.2)))).filterMap
    (fun u => (g.sources.filter (fun s => s.url == u)).head?)

/-- Distinct corrections pointing at those mentions via CORRECTS. -/
def networkCorrections (g : GraphState) (brand_id : String) :
    List CorrectionNode :=
  (firstKeys ((networkMentions g brand_id).flatMap (fun m =>
    (g.corrects.filter (fun e => e.2 == m.id)).map (·.1)))).filterMap
    (fun i => (g.corrections.filter (fun c => c.id == i)).head?)

/-- One iteration of the mention loop of `get_brand_network`
(client.py lines 297-310): add the mention display node and an ABOUT edge
to the brand. -/
def phase1MentionStep (brand_id : String)
    (st : List NodeRec × List EdgeRec) (m : MentionNode) :
    List NodeRec × List EdgeRec :=
  let colorKey := if m.is_accurate then "Mention_accurate"
                  else "Mention_inaccurate"
  (upsertNode st.1
    ⟨"mention-" ++ m.id, "Mention", m.claim.take 50, nodeColor colorKey,
     some m.accuracy_score⟩,
   st.2 ++ [⟨"mention-" ++ m.id, "brand-" ++ brand_id, "ABOUT"⟩])

/-- The node-building phase of `get_brand_network`
(client.py lines 283-343): the brand node, a node and an ABOUT edge per
mention, then platform, source and correction nodes; `nodes` is a dict
keyed by display id. -/
def networkPhase1 (g : GraphState) (brand_id : String) :
    List NodeRec × List EdgeRec :=
  let brand := (g.brands.filter (fun b => b.id == brand_id)).headD
    ⟨brand_id, brand_id⟩
  let nodes := upsertNode []
    ⟨"brand-" ++ brand.id, "Brand", brand.name, nodeColor "Brand", none⟩
  let (nodes, edges) := (networkMentions g brand_id).foldl
    (phase1MentionStep brand_id) (nodes, [])
  let nodes := (networkPlatforms g brand_id).foldl
    (fun ns p => upsertNode ns
      ⟨"platform-" ++ p, "Platform", pyTitle p, nodeColor "Platform", none⟩)
    nodes
  let nodes := (networkSources g brand_id).foldl
    (fun ns s => upsertNode ns
      ⟨"source-" ++ s.url, "Source", s.domain, nodeColor "Source", none⟩)
    nodes
  let nodes := (networkCorrections g brand_id).foldl
    (fun ns c => upsertNode ns
      ⟨"correction-" ++ c.id, "Correction", c.content.take 40,
       nodeColor "Correction", none⟩)
    nodes
  (nodes, edges)

/-- `Neo4jClient.get_brand_network` (client.py lines 266-399): empty result
when the brand does not exist; otherwise the node-building phase followed
by the deduplicating edge-assembly loop over the relationship rows. -/
def get_brand_network (g : GraphState) (brand_id : String) :
    List NodeRec × List EdgeRec :=
  if g.brands.any (fun b => b.id == brand_id) then
    let (nodes, edges) := networkPhase1 g brand_id
    let (edges, _) := (relRows g brand_id).foldl assembleStep (edges, [])
    (nodes, edges)
  else ([], [])

/-- The number of FEEDS edges between a given source and platform in an
edge list (by the display ids used in the output). -/
def countFeeds (edges : List EdgeRec) (surl pname : String) : Nat :=
  (edges.filter (fun e =>
    e.rtype == "FEEDS" && e.source == "source-" ++ surl &&
      e.target == "platform-" ++ pname)).length

/-! ## Job pipeline (orchestrator.py) and dispatch (api/agent.py)

Job records mirror the dictionaries kept in the module-level
`pipeline_jobs` store.  Step payloads and wall-clock timestamps are
opaque to every decision the code makes, so a step result is modelled
only by its presence.  An awaited external operation is modelled by an
`Except String` outcome supplied in an environment: `Except.error`
means the await raised. -/

structure StepState where
  name : String
  status : String
  result : Option Unit
deriving Repr, DecidableEq

/-- Final result of `process_mention` (orchestrator.py lines 122-128). -/
structure MentionFinal where
  mention_id : Option String
  severity : String
  accuracy : ℚ
  alert_created : Bool
  auto_remediate_queued : Bool
deriving Repr, DecidableEq

/-- Final result of `investigate` (orchestrator.py lines 178-183). -/
structure InvestigateFinal where
  mention_id : String
  investigation_status : String
  sources_found : Nat
  insights_generated : Nat
deriving Repr, DecidableEq

/-- Final result of `remediate` (orchestrator.py lines 253-258). -/
structure RemediateFinal where
  mention_id : String
  strategy : String
  correction_content : String
  status : String
deriving Repr, DecidableEq

inductive JobResult where
  | mention (r : MentionFinal)
  | investigation (r : InvestigateFinal)
  | remediation (r : RemediateFinal)
deriving Repr, DecidableEq

structure JobRecord where
  status : String
  steps : List StepState
  result : Option JobResult
  error : Option String
deriving Repr, DecidableEq

/-- The module-level `pipeline_jobs` dict, keyed by job id. -/
abbrev Jobs := List (String × JobRecord)

/-- Dict assignment `pipeline_jobs[job_id] = rec` (overwrite in place or
append). -/
def setJob (jobs : Jobs) (job_id : String) (rec : JobRecord) : Jobs :=
  if jobs.any (fun p => p.1 == job_id) then
    jobs.map (fun p => if p.1 == job_id then (job_id, rec) else p)
  else jobs ++ [(job_id, rec)]

def getJob (jobs : Jobs) (job_id : String) : Option JobRecord :=
  (jobs.find? (fun p => p.1 == job_id)).map (·.2)

/-- `BrandGuardPipeline._update_job_step` (orchestrator.py lines 42-52):
update the first step with the given name, attaching a result payload
when one is supplied; no-op when the job id is not registered. -/
def updateJobStep (jobs : Jobs) (job_id step_name status : String)
    (payload : Bool) : Jobs :=
  match getJob jobs job_id with
  | none => jobs
  | some rec =>
    let rec' := { rec with steps :=
      match rec.steps.findIdx? (fun s => s.name == step_name) with
      | none => rec.steps
      | some i => rec.steps.set i
          { name := step_name, status := status,
            result := if payload then some () else (rec.steps.getD i
              ⟨step_name, status, none⟩).result } }
    setJob jobs job_id rec'

/-- The `except`-handler of the three pipeline methods
(e.g. orchestrator.py lines 136-141): mark the job failed and record the
error string, then re-raise. -/
def failJob (jobs : Jobs) (job_id : String) (e : String) : Jobs :=
  match getJob jobs job_id with
  | none => jobs
  | some rec => setJob jobs job_id { rec with status := "failed", error := some e }

/-- Mark the job completed with its final result
(e.g. orchestrator.py lines 130-132). -/
def completeJob (jobs : Jobs) (job_id : String) (r : JobResult) : Jobs :=
  match getJob jobs job_id with
  | none => jobs
  | some rec => setJob jobs job_id
      { rec with status := "completed", result := some r }

def pendingSteps (names : List String) : List StepState :=
  names.map (fun n => ⟨n, "pending", none⟩)

/-- Payload of `SensoGEOClient.evaluate` as read by the pipeline:
only the `accuracy` key is consulted (`eval_res.get("accuracy", 1.0)`). -/
structure EvalRes where
  accuracy : Option ℚ
deriving Repr, DecidableEq

/-- Environment of one `process_mention` run: outcomes of the two awaited
external calls.  Both are wrapped in inner `try/except` fallbacks. -/
structure ProcEnv where
  evalRes : Except String EvalRes
  searchRes : Except String Unit
deriving Repr

/-- The `mention_data` dict of `process_mention`. -/
structure MentionData where
  id : Option String := none
  brand_id : Option String := none
  content : Option String := none
deriving Repr, DecidableEq

/-- `BrandGuardPipeline.process_mention` (orchestrator.py lines 54-141).
Registers the job, runs the four steps, and finalizes.  The Senso and
Tavily awaits fall back to fixed defaults when they raise (lines 81-85
and 90-94), so they never escape; the `neo4j_store` step body is `pass`
(lines 113-117) and performs no graph write, which is why the graph
state is threaded through unchanged.  Returns the job store, the graph
store and the outcome of the coroutine. -/
def process_mention (env : ProcEnv) (mention_data : MentionData)
    (job_id : String) (jobs : Jobs) (g : GraphState) :
    Jobs × GraphState × Except String MentionFinal :=
  let jobs := setJob jobs job_id
    { status := "running",
      steps := pendingSteps
        ["senso_evaluate", "tavily_search", "score_severity", "neo4j_store"],
      result := none, error := none }
  let jobs := updateJobStep jobs job_id "senso_evaluate" "running" false
  let eval_res :=
    match env.evalRes with
    | Except.ok v => v
    | Except.error _ => ⟨some (mkRat 1 2)⟩
  let jobs := updateJobStep jobs job_id "senso_evaluate" "completed" true
  let jobs := updateJobStep jobs job_id "tavily_search" "running" false
  let jobs := updateJobStep jobs job_id "tavily_search" "completed" true
  let jobs := updateJobStep jobs job_id "score_severity" "running" false
  let accuracy := eval_res.accuracy.getD 1
  let severity := scoreSeverity accuracy
  let jobs := updateJobStep jobs job_id "score_severity" "completed" true
  let jobs := updateJobStep jobs job_id "neo4j_store" "running" false
  let jobs := updateJobStep jobs job_id "neo4j_store" "completed" true
  let final : MentionFinal :=
    { mention_id := mention_data.id,
      severity := severity,
      accuracy := accuracy,
      alert_created := severity == "HIGH" || severity == "CRITICAL",
      auto_remediate_queued := severity == "CRITICAL" }
  let jobs := completeJob jobs job_id (JobResult.mention final)
  (jobs, g, Except.ok final)

/-- Environment of one `investigate` run: outcomes of the three directly
awaited operations (orchestrator.py lines 165, 170, 175), none of which
is wrapped in an inner fallback. -/
structure InvEnv where
  extractOp : Except String Unit
  researchOp : Except String Unit
  updateOp : Except String Unit
deriving Repr

/-- `BrandGuardPipeline.investigate` (orchestrator.py lines 143-196).
A raising await reaches the outer handler, which marks the job failed,
records the error and re-raises (the coroutine outcome is
`Except.error`). -/
def investigate (env : InvEnv) (mention_id job_id : String) (jobs : Jobs) :
    Jobs × Except String InvestigateFinal :=
  let jobs := setJob jobs job_id
    { status := "running",
      steps := pendingSteps ["tavily_extract", "yutori_research", "neo4j_update"],
      result := none, error := none }
  let jobs := updateJobStep jobs job_id "tavily_extract" "running" false
  match env.extractOp with
  | Except.error e => (failJob jobs job_id e, Except.error e)
  | Except.ok _ =>
  let jobs := updateJobStep jobs job_id "tavily_extract" "completed" true
  let jobs := updateJobStep jobs job_id "yutori_research" "running" false
  match env.researchOp with
  | Except.error e => (failJob jobs job_id e, Except.error e)
  | Except.ok _ =>
  let jobs := updateJobStep jobs job_id "yutori_research" "completed" true
  let jobs := updateJobStep jobs job_id "neo4j_update" "running" false
  match env.updateOp with
  | Except.error e => (failJob jobs job_id e, Except.error e)
  | Except.ok _ =>
  let jobs := updateJobStep jobs job_id "neo4j_update" "completed" true
  let final : InvestigateFinal := ⟨mention_id, "complete", 2, 2⟩
  (completeJob jobs job_id (JobResult.investigation final), Except.ok final)

/-- Payload of the remediation-strategy call as read by the pipeline
(`rem_res.get("strategy", "Standard strategy")`). -/
structure RemRes where
  strategy : Option String
deriving Repr, DecidableEq

/-- Payload of the content-generation call as read by the pipeline
(`gen_res.get("generated_text", "")`). -/
structure GenRes where
  generated_text : Option String
deriving Repr, DecidableEq

/-- Environment of one `remediate` run.  The three external-collaborator
calls carry inner fallbacks; the awaited sleep before the store step
(orchestrator.py line 250) does not. -/
structure RemEnv where
  evalOp : Except String Unit
  remOp : Except String RemRes
  genOp : Except String GenRes
  sleepOp : Except String Unit
deriving Repr

/-- `BrandGuardPipeline.remediate` (orchestrator.py lines 198-271). -/
def remediate (env : RemEnv) (mention_id brand_id job_id : String)
    (jobs : Jobs) : Jobs × Except String RemediateFinal :=
  let jobs := setJob jobs job_id
    { status := "running",
      steps := pendingSteps
        ["senso_evaluate_detail", "senso_remediate_strategy",
         "senso_generate_content", "neo4j_store_correction"],
      result := none, error := none }
  let jobs := updateJobStep jobs job_id "senso_evaluate_detail" "running" false
  let jobs := updateJobStep jobs job_id "senso_evaluate_detail" "completed" true
  let jobs := updateJobStep jobs job_id "senso_remediate_strategy" "running" false
  let rem_res :=
    match env.remOp with
    | Except.ok v => v
    | Except.error _ => ⟨some "Acknowledge and correct"⟩
  let jobs := updateJobStep jobs job_id "senso_remediate_strategy" "completed" true
  let jobs := updateJobStep jobs job_id "senso_generate_content" "running" false
  let gen_res :=
    match env.genOp with
    | Except.ok v => v
    | Except.error _ => ⟨some "We are aware of the statements and want to clarify our position based on our official guidelines."⟩
  let jobs := updateJobStep jobs job_id "senso_generate_content" "completed" true
  let jobs := updateJobStep jobs job_id "neo4j_store_correction" "running" false
  match env.sleepOp with
  | Except.error e => (failJob jobs job_id e, Except.error e)
  | Except.ok _ =>
  let jobs := updateJobStep jobs job_id "neo4j_store_correction" "completed" true
  let final : RemediateFinal :=
    ⟨mention_id, rem_res.strategy.getD "Standard strategy",
     gen_res.generated_text.getD "", "ready_for_review"⟩
  (completeJob jobs job_id (JobResult.remediation final), Except.ok final)

/-- HTTP response of the dispatch endpoints (api/agent.py lines 38-47,
57-69). -/
structure DispatchResponse where
  job_id : String
  status : String
deriving Repr, DecidableEq

/-- `run_pipeline` (api/agent.py lines 38-47): schedule the pipeline as a
background task and answer immediately with the job id and status
"queued"; the response does not depend on how the scheduled pipeline run
will fare. -/
def run_pipeline (mention_data : Option MentionData) (mention_id : Option String)
    (job_id : String) : DispatchResponse × MentionData :=
  let data := mention_data.getD
    ⟨mention_id, some "mock_brand", some "mock mention text"⟩
  (⟨job_id, "queued"⟩, data)

/-- `get_pipeline_status` (api/agent.py lines 49-55): 404 when the job id
is unknown, else the raw job record. -/
def get_pipeline_status (jobs : Jobs) (job_id : String) :
    Except Nat JobRecord :=
  match getJob jobs job_id with
  | none => Except.error 404
  | some rec => Except.ok rec

/-! ## Theorems -/

/-- C2 counterexample: the score_severity step of `process_mention` does
not use the 0-100 threshold bands the claim states.  At accuracy score 39
it yields "LOW" (not "critical") and at 40 it yields "LOW" (not "high"),
because the step thresholds the accuracy on a 0-1 scale. -/
theorem c2_severity_banding_counterexample :
    scoreSeverity 39 = "LOW" ∧ scoreSeverity 39 ≠ "critical" ∧
    scoreSeverity 40 = "LOW" ∧ scoreSeverity 40 ≠ "high" := by
  refine ⟨?_, ?_, ?_, ?_⟩ <;> norm_num [scoreSeverity] <;> decide

/-- C2 amended: the score_severity step of `process_mention` bands the
accuracy on a 0-1 scale (below 0.6 CRITICAL, below 0.8 HIGH, below 0.9
MEDIUM, otherwise LOW, boundary-inclusive on the lower bound); the
claimed 0-100 table {39, 40, 59, 60, 79, 80, 95} yielding
{critical, high, high, medium, medium, low, low} holds for the severity
banding of `run_full_scan` instead. -/
theorem c2_severity_banding_amended :
    scoreSeverity (1/2) = "CRITICAL" ∧
    scoreSeverity (59/100) = "CRITICAL" ∧
    scoreSeverity (6/10) = "HIGH" ∧
    scoreSeverity (79/100) = "HIGH" ∧
    scoreSeverity (8/10) = "MEDIUM" ∧
    scoreSeverity (89/100) = "MEDIUM" ∧
    scoreSeverity (9/10) = "LOW" ∧
    fullScanSeverity 39 = "critical" ∧
    fullScanSeverity 40 = "high" ∧
    fullScanSeverity 59 = "high" ∧
    fullScanSeverity 60 = "medium" ∧
    fullScanSeverity 79 = "medium" ∧
    fullScanSeverity 80 = "low" ∧
    fullScanSeverity 95 = "low" := by
  refine ⟨?_, ?_, ?_, ?_, ?_, ?_, ?_, ?_, ?_, ?_, ?_, ?_, ?_, ?_⟩ <;>
    norm_num [scoreSeverity, fullScanSeverity]

/-- Test graph for the weighted-aggregation scenario: brand "acme" with
platform "a" carrying 2 mentions of accuracy 90 and platform "b" carrying
8 mentions of accuracy 50. -/
def c5graph : GraphState :=
  { brands := [⟨"acme", "Acme"⟩],
    platforms := ["a", "b"],
    mentions :=
      [⟨"a1", "c", 90, true, "low", "t"⟩, ⟨"a2", "c", 90, true, "low", "t"⟩,
       ⟨"b1", "c", 50, false, "low", "t"⟩, ⟨"b2", "c", 50, false, "low", "t"⟩,
       ⟨"b3", "c", 50, false, "low", "t"⟩, ⟨"b4", "c", 50, false, "low", "t"⟩,
       ⟨"b5", "c", 50, false, "low", "t"⟩, ⟨"b6", "c", 50, false, "low", "t"⟩,
       ⟨"b7", "c", 50, false, "low", "t"⟩, ⟨"b8", "c", 50, false, "low", "t"⟩],
    sources := [], corrections := [],
    about :=
      [("a1", "acme"), ("a2", "acme"), ("b1", "acme"), ("b2", "acme"),
       ("b3", "acme"), ("b4", "acme"), ("b5", "acme"), ("b6", "acme"),
       ("b7", "acme"), ("b8", "acme")],
    found_on :=
      [("a1", "a"), ("a2", "a"), ("b1", "b"), ("b2", "b"), ("b3", "b"),
       ("b4", "b"), ("b5", "b"), ("b6", "b"), ("b7", "b"), ("b8", "b")],
    sourced_from := [], feeds := [], corrects := [], for_brand := [] }

/-- The rows of the health query over `c5graph`, written out. -/
def c5pA : List (MentionNode × String) :=
  [(⟨"a1", "c", 90, true, "low", "t"⟩, "a"),
   (⟨"a2", "c", 90, true, "low", "t"⟩, "a")]

def c5pB : List (MentionNode × String) :=
  [(⟨"b1", "c", 50, false, "low", "t"⟩, "b"),
   (⟨"b2", "c", 50, false, "low", "t"⟩, "b"),
   (⟨"b3", "c", 50, false, "low", "t"⟩, "b"),
   (⟨"b4", "c", 50, false, "low", "t"⟩, "b"),
   (⟨"b5", "c", 50, false, "low", "t"⟩, "b"),
   (⟨"b6", "c", 50, false, "low", "t"⟩, "b"),
   (⟨"b7", "c", 50, false, "low", "t"⟩, "b"),
   (⟨"b8", "c", 50, false, "low", "t"⟩, "b")]

lemma c5_healthRows_eval :
    healthRows c5graph "acme" =
      [⟨"a", 2, 90, 2, 0⟩, ⟨"b", 8, 50, 0, 0⟩] := by
  have hrows : brandMentionPlatformRows c5graph "acme" = c5pA ++ c5pB := by
    decide
  have hk : firstKeys ((c5pA ++ c5pB).map (·.2)) = ["a", "b"] := by decide
  have hfa : (c5pA ++ c5pB).filter (fun pr => pr.2 == "a") = c5pA := by decide
  have hfb : (c5pA ++ c5pB).filter (fun pr => pr.2 == "b") = c5pB := by decide
  have haa : c5pA.filter (fun pr => pr.1.is_accurate) = c5pA := by decide
  have hab : c5pB.filter (fun pr => pr.1.is_accurate) = [] := by decide
  have hta : c5pA.filter (fun pr =>
      pr.1.severity == "high" || pr.1.severity == "critical") = [] := by decide
  have htb : c5pB.filter (fun pr =>
      pr.1.severity == "high" || pr.1.severity == "critical") = [] := by decide
  simp only [healthRows, hrows, hk, List.map_cons, List.map_nil, hfa, hfb,
    haa, hab, hta, htb]
  norm_num [c5pA, c5pB]

/-- C5: `get_brand_health` aggregates overall accuracy as the
mention-count-weighted mean of the per-platform averages
(rounded to 1 decimal), not the simple average: for platform "a"
(2 mentions, avg 90) and platform "b" (8 mentions, avg 50) it returns 58,
while the simple average of the two per-platform averages would be 70. -/
theorem c5_weighted_aggregation :
    (get_brand_health c5graph "acme").overall_accuracy = 58 ∧
    (get_brand_health c5graph "acme").total_mentions = 10 ∧
    (get_brand_health c5graph "acme").by_platform =
      [("a", 90, 2), ("b", 50, 8)] ∧
    (90 + 50 : ℚ) / 2 = 70 ∧ (58 : ℚ) ≠ 70 := by
  refine ⟨?_, ?_, ?_, by norm_num, by norm_num⟩ <;>
    simp only [get_brand_health, c5_healthRows_eval, List.map_cons,
      List.map_nil] <;>
    norm_num [pyRound1, pyRoundInt]

lemma mergeBrand_mentions (g : GraphState) (a b : String) :
    (mergeBrand g a b).mentions = g.mentions := by
  unfold mergeBrand; split <;> rfl

lemma mergePlatform_mentions (g : GraphState) (p : String) :
    (mergePlatform g p).mentions = g.mentions := by
  unfold mergePlatform; split <;> rfl

lemma storeMentionSource_mentions (g : GraphState) (a b c : String) :
    (storeMentionSource g a b c).mentions = g.mentions := by
  dsimp only [storeMentionSource]
  repeat' split
  all_goals rfl

lemma foldl_storeMentionSource_mentions (urls : List String)
    (g : GraphState) (mid p : String) :
    (urls.foldl (fun a u => storeMentionSource a mid p u) g).mentions =
      g.mentions := by
  induction urls generalizing g with
  | nil => rfl
  | cons u us ih => rw [List.foldl_cons, ih, storeMentionSource_mentions]

/-- C10: `store_mention` persists the caller-supplied severity unchanged
(defaulting to "medium" when absent) and never derives it from the
accuracy score, while it does derive `is_accurate` as
`accuracy_score >= 70` (accuracy defaulting to 0); storing severity
"critical" with accuracy 95 therefore yields a node whose severity
disagrees with its accuracy classification. -/
theorem c10_store_mention_severity_passthrough :
    (∀ (g : GraphState) (i : MentionInput) (gid gdate : String)
        (g' : GraphState) (r : StoreMentionResult),
      store_mention g i gid gdate = Except.ok (g', r) →
      g'.mentions = g.mentions ++
        [⟨pyOrStr i.id gid, i.claim, i.accuracy_score.getD 0,
          decide (i.accuracy_score.getD 0 ≥ 70),
          i.severity.getD "medium", pyOrStr i.detected_at gdate⟩]) ∧
    (∃ g' r, store_mention emptyGraph
        ⟨some "m1", "b", none, "web", "claim", some 95, some "critical",
         some "t", []⟩ "gen" "now" = Except.ok (g', r) ∧
      g'.mentions = [⟨"m1", "claim", 95, true, "critical", "t"⟩]) := by
  constructor
  · intro g i gid gdate g' r h
    dsimp only [store_mention] at h
    split at h
    · exact absurd h (by simp)
    · simp only [Except.ok.injEq, Prod.mk.injEq] at h
      obtain ⟨hg, -⟩ := h
      subst hg
      rw [foldl_storeMentionSource_mentions]
      simp [mergePlatform_mentions, mergeBrand_mentions]
  · exact ⟨_, _, rfl, by decide⟩

/-- Witness for C10: the passthrough equation instantiated at a concrete
store of severity "critical" with accuracy 95 into the empty graph. -/
theorem c10_store_mention_severity_passthrough_witness :
    ({ brands := [⟨"b", "b"⟩], platforms := ["web"],
       mentions := [⟨"m1", "claim", 95, true, "critical", "t"⟩],
       sources := [], corrections := [],
       about := [("m1", "b")], found_on := [("m1", "web")],
       sourced_from := [], feeds := [], corrects := [],
       for_brand := [] } : GraphState).mentions =
      emptyGraph.mentions ++
        [⟨pyOrStr (some "m1") "gen", "claim", (some (95 : ℚ)).getD 0,
          decide ((some (95 : ℚ)).getD 0 ≥ 70),
          (some "critical").getD "medium", pyOrStr (some "t") "now"⟩] :=
  c10_store_mention_severity_passthrough.1 emptyGraph
    ⟨some "m1", "b", none, "web", "claim", some 95, some "critical",
     some "t", []⟩ "gen" "now" _ ⟨some "element-m1", "m1", 2⟩ rfl

/-- C3 counterexample: `store_correction` for a mention id that does not
exist does NOT fail with a NotFound error — it returns successfully with
`neo4j_id = None` and leaves the graph unchanged. -/
theorem c3_correction_notfound_counterexample :
    store_correction emptyGraph ⟨"m1", some "c1", some "fix", none, none, none⟩
      "gen" "now" = Except.ok (emptyGraph, ⟨none, "c1"⟩) := by
  rfl

/-- C3 amended: for every correction input whose target mention id does
not exist in the graph, `store_correction` creates no Correction node and
no CORRECTS or FOR_BRAND edge (the graph is returned unchanged), but it
does not fail with NotFound: it returns successfully with a null
`neo4j_id`. -/
theorem c3_correction_missing_mention_noop (g : GraphState)
    (c : CorrectionInput) (genId genDate : String)
    (h : ∀ m ∈ g.mentions, m.id ≠ c.mention_id) :
    store_correction g c genId genDate =
      Except.ok (g, ⟨none, pyOrStr c.id genId⟩) := by
  have hfil : g.mentions.filter (fun m => m.id == c.mention_id) = [] := by
    rw [List.filter_eq_nil_iff]
    intro m hm
    simpa using h m hm
  have hrows : correctionMatchRows g c.mention_id = [] := by
    unfold correctionMatchRows
    rw [hfil]
    rfl
  dsimp only [store_correction]
  rw [hrows]

/-- Witness for C3: a graph holding one mention "m2" and a correction
targeting the absent mention "m1". -/
theorem c3_correction_missing_mention_noop_witness :
    store_correction
      ({ emptyGraph with
          mentions := [⟨"m2", "c", 50, false, "low", "t"⟩],
          about := [("m2", "b")], brands := [⟨"b", "b"⟩] })
      ⟨"m1", some "c1", some "fix", none, none, none⟩ "gen" "now" =
      Except.ok
        ({ emptyGraph with
            mentions := [⟨"m2", "c", 50, false, "low", "t"⟩],
            about := [("m2", "b")], brands := [⟨"b", "b"⟩] },
         ⟨none, "c1"⟩) :=
  c3_correction_missing_mention_noop _ _ "gen" "now" (by decide)

/-- C7: Brand and Source upserts of `store_mention` are idempotent on
their keys.  Storing two mentions with distinct ids for the same brand id
into the empty graph yields exactly one Brand node (named at first
insertion), and citing the same source URL from both mentions yields
exactly one Source node whose domain was derived at first insertion,
while both SOURCED_FROM edges accumulate. -/
theorem c7_idempotent_upsert (m1 m2 b bn1 bn2 p cl1 cl2 u : String)
    (a1 a2 : ℚ) (s1 s2 : String)
    (hm1 : m1 ≠ "") (hm2 : m2 ≠ "") (hne : m1 ≠ m2) :
    store_mention emptyGraph
        ⟨some m1, b, some bn1, p, cl1, some a1, some s1, none, [u]⟩ "gen" "d" =
      Except.ok
        (⟨[⟨b, bn1⟩], [p], [⟨m1, cl1, a1, decide (a1 ≥ 70), s1, "d"⟩],
          [⟨u, extractDomain u⟩], [], [(m1, b)], [(m1, p)], [(m1, u)],
          [(u, p)], [], []⟩,
         ⟨some ("element-" ++ m1), m1, 4⟩) ∧
    store_mention
        ⟨[⟨b, bn1⟩], [p], [⟨m1, cl1, a1, decide (a1 ≥ 70), s1, "d"⟩],
         [⟨u, extractDomain u⟩], [], [(m1, b)], [(m1, p)], [(m1, u)],
         [(u, p)], [], []⟩
        ⟨some m2, b, some bn2, p, cl2, some a2, some s2, none, [u]⟩ "gen" "d" =
      Except.ok
        (⟨[⟨b, bn1⟩], [p],
          [⟨m1, cl1, a1, decide (a1 ≥ 70), s1, "d"⟩,
           ⟨m2, cl2, a2, decide (a2 ≥ 70), s2, "d"⟩],
          [⟨u, extractDomain u⟩], [], [(m1, b), (m2, b)],
          [(m1, p), (m2, p)], [(m1, u), (m2, u)], [(u, p)], [], []⟩,
         ⟨some ("element-" ++ m2), m2, 4⟩) := by
  constructor
  · simp [store_mention, mergeBrand, mergePlatform, storeMentionSource,
      emptyGraph, pyOrStr, hm1]
  · simp [store_mention, mergeBrand, mergePlatform, storeMentionSource,
      emptyGraph, pyOrStr, hm2, Ne.symm hne, hne]

/-- Witness for C7: the two-store scenario at concrete ids, brand, url
and scores. -/
theorem c7_idempotent_upsert_witness :
    store_mention emptyGraph
        ⟨some "m1", "acme", some "Acme", "web", "c1", some 30, some "high",
         none, ["https://ex.com/a"]⟩ "gen" "d" =
      Except.ok
        (⟨[⟨"acme", "Acme"⟩], ["web"],
          [⟨"m1", "c1", 30, decide ((30 : ℚ) ≥ 70), "high", "d"⟩],
          [⟨"https://ex.com/a", extractDomain "https://ex.com/a"⟩], [],
          [("m1", "acme")], [("m1", "web")], [("m1", "https://ex.com/a")],
          [("https://ex.com/a", "web")], [], []⟩,
         ⟨some ("element-" ++ "m1"), "m1", 4⟩) ∧
    store_mention
        ⟨[⟨"acme", "Acme"⟩], ["web"],
         [⟨"m1", "c1", 30, decide ((30 : ℚ) ≥ 70), "high", "d"⟩],
         [⟨"https://ex.com/a", extractDomain "https://ex.com/a"⟩], [],
         [("m1", "acme")], [("m1", "web")], [("m1", "https://ex.com/a")],
         [("https://ex.com/a", "web")], [], []⟩
        ⟨some "m2", "acme", some "Acme Corp", "web", "c2", some 80,
         some "low", none, ["https://ex.com/a"]⟩ "gen" "d" =
      Except.ok
        (⟨[⟨"acme", "Acme"⟩], ["web"],
          [⟨"m1", "c1", 30, decide ((30 : ℚ) ≥ 70), "high", "d"⟩,
           ⟨"m2", "c2", 80, decide ((80 : ℚ) ≥ 70), "low", "d"⟩],
          [⟨"https://ex.com/a", extractDomain "https://ex.com/a"⟩], [],
          [("m1", "acme"), ("m2", "acme")], [("m1", "web"), ("m2", "web")],
          [("m1", "https://ex.com/a"), ("m2", "https://ex.com/a")],
          [("https://ex.com/a", "web")], [], []⟩,
         ⟨some ("element-" ++ "m2"), "m2", 4⟩) :=
  c7_idempotent_upsert "m1" "m2" "acme" "Acme" "Acme Corp" "web" "c1" "c2"
    "https://ex.com/a" 30 80 "high" "low" (by decide) (by decide) (by decide)

/-! ### C6: FEEDS edge deduplication in get_brand_network -/

/-- A mention node of the C6 scenario. -/
def c6node (mid : String) : MentionNode := ⟨mid, "c", 50, false, "low", "t"⟩

/-- The relationship row produced for one scenario mention. -/
def c6row (pname surl mid : String) : RelRow :=
  ⟨some mid, some pname, some surl, some pname, none⟩

/-- Scenario graph: brand "b" with the given mentions, all found on the
one platform and all citing the one source, which feeds that platform. -/
def c6graph (mids : List String) (pname surl : String) : GraphState :=
  { brands := [⟨"b", "b"⟩], platforms := [pname],
    mentions := mids.map c6node,
    sources := [⟨surl, surl⟩], corrections := [],
    about := mids.map (fun i => (i, "b")),
    found_on := mids.map (fun i => (i, pname)),
    sourced_from := mids.map (fun i => (i, surl)),
    feeds := [(surl, pname)], corrects := [], for_brand := [] }

lemma flatMap_eq_map_of_forall {α β : Type} (l : List α) (f : α → List β)
    (g : α → β) (h : ∀ a ∈ l, f a = [g a]) : l.flatMap f = l.map g := by
  induction l with
  | nil => rfl
  | cons x xs ih =>
    rw [List.flatMap_cons, List.map_cons, h x (by simp),
      ih (fun a ha => h a (by simp [ha]))]
    rfl

lemma c6_relRows (mids : List String) (pname surl : String)
    (hnd : mids.Nodup) (hne : mids ≠ []) :
    relRows (c6graph mids pname surl) "b" =
      mids.map (c6row pname surl) := by
  have hb : ((c6graph mids pname surl).brands.any
      (fun b => b.id == "b")) = true := by simp [c6graph]
  have hmen : (c6graph mids pname surl).mentions = mids.map c6node := rfl
  have habt : (c6graph mids pname surl).about =
      mids.map (fun i => (i, "b")) := rfl
  have hfnd : (c6graph mids pname surl).found_on =
      mids.map (fun i => (i, pname)) := rfl
  have hsfr : (c6graph mids pname surl).sourced_from =
      mids.map (fun i => (i, surl)) := rfl
  have hfil : (mids.map c6node).filter
      (fun m => (mids.map (fun i => (i, "b"))).contains (m.id, "b")) =
      mids.map c6node := by
    rw [List.filter_eq_self]
    intro m hm
    obtain ⟨mid, hmid, rfl⟩ := List.mem_map.mp hm
    simp only [c6node, List.contains_eq_any_beq]
    rw [List.any_eq_true]
    exact ⟨(mid, "b"), List.mem_map.mpr ⟨mid, hmid, rfl⟩, by simp⟩
  have hnonempty : (mids.map c6node).isEmpty = false := by
    cases mids with
    | nil => exact absurd rfl hne
    | cons a l => rfl
  unfold relRows
  rw [if_pos hb, hmen, habt, hfnd, hsfr, hfil]
  unfold optRows
  rw [hnonempty]
  show ((mids.map c6node).map some).flatMap _ = _
  rw [List.map_map, List.flatMap_map]
  apply flatMap_eq_map_of_forall
  intro mid hmid
  have hone : mids.filter (fun x => x == mid) = [mid] := by
    rw [List.filter_beq, List.count_eq_one_of_mem hnd hmid]
    rfl
  have hfo : (mids.map (fun i => (i, pname))).filter
      (fun e => e.1 == mid) = [(mid, pname)] := by
    rw [List.filter_map]
    have hcomp : ((fun (e : String × String) => e.1 == mid) ∘
        (fun i => (i, pname))) = fun x => x == mid := rfl
    rw [hcomp, hone]
    rfl
  have hsf : (mids.map (fun i => (i, surl))).filter
      (fun e => e.1 == mid) = [(mid, surl)] := by
    rw [List.filter_map]
    have hcomp : ((fun (e : String × String) => e.1 == mid) ∘
        (fun i => (i, surl))) = fun x => x == mid := rfl
    rw [hcomp, hone]
    rfl
  simp only [Function.comp_apply, c6graph, c6node]
  rw [hfo, hsf]
  simp [optRows, c6row]

lemma addEdge_guard_false (st : List EdgeRec × List (String × String))
    (k : String × String) (e : EdgeRec) : addEdge st false k e = st := by
  unfold addEdge
  rfl

lemma addEdge_skip (st : List EdgeRec × List (String × String)) (gd : Bool)
    (k : String × String) (e : EdgeRec) (h : k ∈ st.2) :
    addEdge st gd k e = st := by
  unfold addEdge
  have : st.2.contains k = true := by simp_all
  rw [this]
  simp

lemma addEdge_seen_mono (st : List EdgeRec × List (String × String))
    (gd : Bool) (k k' : String × String) (e : EdgeRec) (h : k' ∈ st.2) :
    k' ∈ (addEdge st gd k e).2 := by
  unfold addEdge
  split
  · simpa using Or.inl h
  · exact h

lemma addEdge_not_mem (st : List EdgeRec × List (String × String))
    (gd : Bool) (k k' : String × String) (e : EdgeRec)
    (h : k' ∉ st.2) (hne : k' ≠ k) : k' ∉ (addEdge st gd k e).2 := by
  unfold addEdge
  split
  · simp_all
  · exact h

lemma addEdge_countFeeds_other (st : List EdgeRec × List (String × String))
    (gd : Bool) (k : String × String) (e : EdgeRec) (s p : String)
    (h : e.rtype ≠ "FEEDS") :
    countFeeds (addEdge st gd k e).1 s p = countFeeds st.1 s p := by
  unfold addEdge
  split
  · show countFeeds (st.1 ++ [e]) s p = countFeeds st.1 s p
    unfold countFeeds
    rw [List.filter_append]
    have hf : [e].filter (fun x => x.rtype == "FEEDS" &&
        x.source == "source-" ++ s && x.target == "platform-" ++ p) = [] := by
      rw [List.filter_eq_nil_iff]
      intro a ha
      simp only [List.mem_singleton] at ha
      subst ha
      simp [h]
    rw [hf, List.append_nil]
  · rfl

lemma addEdge_countFeeds_add (st : List EdgeRec × List (String × String))
    (s p : String) (h : (s, p) ∉ st.2) :
    countFeeds (addEdge st true (s, p)
      ⟨"source-" ++ s, "platform-" ++ p, "FEEDS"⟩).1 s p =
      countFeeds st.1 s p + 1 ∧
    (s, p) ∈ (addEdge st true (s, p)
      ⟨"source-" ++ s, "platform-" ++ p, "FEEDS"⟩).2 := by
  unfold addEdge
  have hc : st.2.contains (s, p) = false := by simp_all
  rw [hc]
  constructor
  · show countFeeds (st.1 ++ [_]) s p = _
    unfold countFeeds
    rw [List.filter_append]
    simp
  · simp

/-- Processing one scenario row when the FEEDS key is already in the seen
set changes no FEEDS count and keeps the key present. -/
lemma c6_step_after (pname surl : String) (hp : pname ≠ "") (hs : surl ≠ "")
    (st : List EdgeRec × List (String × String)) (mid : String)
    (hmem : (surl, pname) ∈ st.2) :
    countFeeds (assembleStep st (c6row pname surl mid)).1 surl pname =
      countFeeds st.1 surl pname ∧
    (surl, pname) ∈ (assembleStep st (c6row pname surl mid)).2 := by
  unfold assembleStep c6row
  simp only [truthy, oval, Option.getD]
  split
  · rw [addEdge_skip _ _ _ _
      (addEdge_seen_mono _ _ _ _ _ (addEdge_seen_mono _ _ _ _ _ hmem))]
    rw [Bool.false_and, addEdge_guard_false]
    refine ⟨?_, addEdge_seen_mono _ _ _ _ _ (addEdge_seen_mono _ _ _ _ _ hmem)⟩
    rw [addEdge_countFeeds_other _ _ _ _ _ _ (by simp),
      addEdge_countFeeds_other _ _ _ _ _ _ (by simp)]
  · rw [addEdge_skip _ _ _ _ hmem]
    rw [Bool.false_and, addEdge_guard_false]
    exact ⟨rfl, hmem⟩

/-- Processing the first scenario row (FEEDS key not yet seen, no key
collision) emits exactly one new FEEDS edge and records the key. -/
lemma c6_step_first (pname surl : String) (hp : pname ≠ "") (hs : surl ≠ "")
    (st : List EdgeRec × List (String × String)) (mid : String)
    (hmid : mid ≠ "") (hnotmem : (surl, pname) ∉ st.2)
    (hcol : surl ≠ "mention-" ++ mid) :
    countFeeds (assembleStep st (c6row pname surl mid)).1 surl pname =
      countFeeds st.1 surl pname + 1 ∧
    (surl, pname) ∈ (assembleStep st (c6row pname surl mid)).2 := by
  unfold assembleStep c6row
  simp only [truthy, oval, Option.getD]
  rw [if_pos (by simp [hmid])]
  have h1 : (surl, pname) ∉
      (addEdge st (decide ¬pname = "")
        ("mention-" ++ mid, pname)
        ⟨"mention-" ++ mid, "platform-" ++ pname, "FOUND_ON"⟩).2 :=
    addEdge_not_mem _ _ _ _ _ hnotmem (by simp [hcol])
  have h2 : (surl, pname) ∉
      (addEdge _ (decide ¬surl = "")
        ("mention-" ++ mid, surl)
        ⟨"mention-" ++ mid, "source-" ++ surl, "SOURCED_FROM"⟩).2 :=
    addEdge_not_mem _ _ _ _ _ h1 (by simp [hcol])
  rw [show ((decide ¬surl = "" : Bool) && decide ¬pname = "") = true by
    simp [hs, hp]]
  obtain ⟨hcnt, hmem⟩ := addEdge_countFeeds_add _ surl pname h2
  rw [Bool.false_and, addEdge_guard_false]
  refine ⟨?_, hmem⟩
  rw [hcnt, addEdge_countFeeds_other _ _ _ _ _ _ (by simp),
    addEdge_countFeeds_other _ _ _ _ _ _ (by simp)]

lemma c6_fold_after (pname surl : String) (hp : pname ≠ "") (hs : surl ≠ "")
    (rest : List String) (st : List EdgeRec × List (String × String))
    (hmem : (surl, pname) ∈ st.2) :
    countFeeds ((rest.map (c6row pname surl)).foldl assembleStep st).1
      surl pname = countFeeds st.1 surl pname := by
  induction rest generalizing st with
  | nil => rfl
  | cons m rest ih =>
    rw [List.map_cons, List.foldl_cons]
    obtain ⟨hc, hm⟩ := c6_step_after pname surl hp hs st m hmem
    rw [ih _ hm, hc]

lemma countFeeds_append_nonfeeds (es : List EdgeRec) (e : EdgeRec)
    (s p : String) (h : e.rtype ≠ "FEEDS") :
    countFeeds (es ++ [e]) s p = countFeeds es s p := by
  unfold countFeeds
  rw [List.filter_append]
  have hf : [e].filter (fun x => x.rtype == "FEEDS" &&
      x.source == "source-" ++ s && x.target == "platform-" ++ p) = [] := by
    rw [List.filter_eq_nil_iff]
    intro a ha
    simp only [List.mem_singleton] at ha
    subst ha
    simp [h]
  rw [hf, List.append_nil]

lemma countFeeds_phase1_fold (bid s p : String) (ms : List MentionNode)
    (st : List NodeRec × List EdgeRec) :
    countFeeds ((ms.foldl (phase1MentionStep bid) st).2) s p =
      countFeeds st.2 s p := by
  induction ms generalizing st with
  | nil => rfl
  | cons m rest ih =>
    rw [List.foldl_cons, ih]
    exact countFeeds_append_nonfeeds _ _ _ _ (by simp)

lemma countFeeds_phase1 (g : GraphState) (bid s p : String) :
    countFeeds (networkPhase1 g bid).2 s p = 0 := by
  unfold networkPhase1
  dsimp only
  rw [countFeeds_phase1_fold]
  rfl

/-- C6 counterexample: the claim quantifies over all such scenarios, but
the dedup keys of the four edge kinds share one seen set and carry no
relationship type, so a source whose URL collides with the
mention-platform key (url "mention-m1" while mention "m1" is on the same
platform) suppresses the FEEDS edge entirely: with 3 mentions all citing
that source feeding platform "chatgpt", `get_brand_network` emits 0 FEEDS
edges for the (source, platform) pair, not exactly 1. -/
theorem c6_feeds_dedup_counterexample :
    countFeeds
      (get_brand_network
        (c6graph ["m1", "m2", "m3"] "chatgpt" "mention-m1") "b").2
      "mention-m1" "chatgpt" = 0 ∧ (0 : Nat) ≠ 1 := by
  constructor
  · rfl
  · decide

/-- C6 amended: for any nonempty duplicate-free list of mentions that all
cite the same source feeding the same platform, `get_brand_network` emits
exactly one FEEDS edge for that (source, platform) pair, provided the
source URL does not collide with the type-less dedup key
`("mention-" ++ mention id, platform)` that the shared seen set already
holds (that is, the URL is not literally "mention-" followed by one of
the mention ids). -/
theorem c6_feeds_dedup_amended (mids : List String) (pname surl : String)
    (hnd : mids.Nodup) (hne : mids ≠ [])
    (hmids : ∀ mid ∈ mids, mid ≠ "")
    (hp : pname ≠ "") (hs : surl ≠ "")
    (hcol : ∀ mid ∈ mids, surl ≠ "mention-" ++ mid) :
    countFeeds (get_brand_network (c6graph mids pname surl) "b").2
      surl pname = 1 := by
  have hb : ((c6graph mids pname surl).brands.any
      (fun x => x.id == "b")) = true := by simp [c6graph]
  unfold get_brand_network
  rw [if_pos hb]
  dsimp only
  rw [c6_relRows mids pname surl hnd hne]
  cases mids with
  | nil => exact absurd rfl hne
  | cons m rest =>
    rw [List.map_cons, List.foldl_cons]
    obtain ⟨hc1, hm1⟩ := c6_step_first pname surl hp hs
      ((networkPhase1 (c6graph (m :: rest) pname surl) "b").2, [])
      m (hmids m (by simp)) (by simp) (hcol m (by simp))
    rw [c6_fold_after pname surl hp hs rest _ hm1, hc1, countFeeds_phase1]

/-- Witness for C6 amended: three mentions citing one ordinary source URL
feeding one platform. -/
theorem c6_feeds_dedup_amended_witness :
    countFeeds
      (get_brand_network
        (c6graph ["m1", "m2", "m3"] "chatgpt" "https://ex.com") "b").2
      "https://ex.com" "chatgpt" = 1 :=
  c6_feeds_dedup_amended ["m1", "m2", "m3"] "chatgpt" "https://ex.com"
    (by decide) (by decide) (by decide) (by decide) (by decide) (by decide)

/-! ### Job registry lemmas -/

/-- The status a poll of the registry reports for a job id. -/
def statusOf (jobs : Jobs) (jid : String) : Option String :=
  (getJob jobs jid).map (·.status)

/-- The captured error a poll of the registry reports for a job id. -/
def errorOf (jobs : Jobs) (jid : String) : Option (Option String) :=
  (getJob jobs jid).map (·.error)

lemma find?_map_set (jobs : Jobs) (jid : String) (rec : JobRecord)
    (h : jobs.any (fun p => p.1 == jid) = true) :
    (jobs.map (fun p => if p.1 == jid then (jid, rec) else p)).find?
      (fun p => p.1 == jid) = some (jid, rec) := by
  induction jobs with
  | nil => simp at h
  | cons a l ih =>
    rw [List.map_cons]
    by_cases ha : (a.1 == jid) = true
    · rw [if_pos ha, List.find?_cons_of_pos _ (by simp)]
    · rw [if_neg ha, List.find?_cons_of_neg _ (by simpa using ha)]
      apply ih
      have ha' : (a.1 == jid) = false := by simpa using ha
      rw [List.any_cons, ha', Bool.false_or] at h
      exact h

lemma getJob_setJob (jobs : Jobs) (jid : String) (rec : JobRecord) :
    getJob (setJob jobs jid rec) jid = some rec := by
  unfold setJob getJob
  split
  · rename_i h
    rw [find?_map_set jobs jid rec h]
    rfl
  · rename_i h
    have hnone : jobs.find? (fun p => p.1 == jid) = none := by
      rw [List.find?_eq_none]
      intro x hx hb
      exact h (List.any_eq_true.mpr ⟨x, hx, hb⟩)
    rw [List.find?_append, hnone]
    simp

lemma statusOf_setJob (jobs : Jobs) (jid : String) (rec : JobRecord) :
    statusOf (setJob jobs jid rec) jid = some rec.status := by
  unfold statusOf
  rw [getJob_setJob]
  rfl

lemma statusOf_updateJobStep (jobs : Jobs) (jid n s : String) (pl : Bool) :
    statusOf (updateJobStep jobs jid n s pl) jid = statusOf jobs jid := by
  unfold updateJobStep
  cases h : getJob jobs jid with
  | none => rfl
  | some rec =>
    unfold statusOf
    rw [getJob_setJob, h]
    rfl

lemma errorOf_updateJobStep (jobs : Jobs) (jid n s : String) (pl : Bool) :
    errorOf (updateJobStep jobs jid n s pl) jid = errorOf jobs jid := by
  unfold updateJobStep
  cases h : getJob jobs jid with
  | none => rfl
  | some rec =>
    unfold errorOf
    rw [getJob_setJob, h]
    rfl

lemma errorOf_setJob (jobs : Jobs) (jid : String) (rec : JobRecord) :
    errorOf (setJob jobs jid rec) jid = some rec.error := by
  unfold errorOf
  rw [getJob_setJob]
  rfl

lemma statusOf_completeJob (jobs : Jobs) (jid : String) (r : JobResult)
    (st : String) (h : statusOf jobs jid = some st) :
    statusOf (completeJob jobs jid r) jid = some "completed" := by
  unfold completeJob
  unfold statusOf at h
  cases hg : getJob jobs jid with
  | none => rw [hg] at h; exact absurd h (by simp)
  | some rec => exact statusOf_setJob jobs jid _

lemma failJob_spec (jobs : Jobs) (jid e : String)
    (st : String) (h : statusOf jobs jid = some st) :
    statusOf (failJob jobs jid e) jid = some "failed" ∧
    errorOf (failJob jobs jid e) jid = some (some e) := by
  unfold failJob
  unfold statusOf at h
  cases hg : getJob jobs jid with
  | none => rw [hg] at h; exact absurd h (by simp)
  | some rec => exact ⟨statusOf_setJob jobs jid _, errorOf_setJob jobs jid _⟩

/-- A `process_mention` run always completes its job: both awaited calls
carry inner fallbacks, so no exception reaches the outer handler. -/
lemma process_mention_spec (env : ProcEnv) (d : MentionData) (jid : String)
    (jobs : Jobs) (g : GraphState) :
    statusOf (process_mention env d jid jobs g).1 jid = some "completed" ∧
    ∃ f, (process_mention env d jid jobs g).2.2 = Except.ok f := by
  refine ⟨?_, ⟨_, rfl⟩⟩
  dsimp only [process_mention]
  apply statusOf_completeJob _ _ _ "running"
  simp only [statusOf_updateJobStep, statusOf_setJob]

/-- Outcome analysis of an `investigate` run: either every awaited
operation succeeded and the job completed, or the first raising await
made the outer handler mark the job failed with the error captured, and
the exception was re-raised (the coroutine outcome is that error). -/
lemma investigate_spec (env : InvEnv) (mid jid : String) (jobs : Jobs) :
    ((investigate env mid jid jobs).2 =
        Except.ok ⟨mid, "complete", 2, 2⟩ ∧
      statusOf (investigate env mid jid jobs).1 jid = some "completed") ∨
    (∃ e, (investigate env mid jid jobs).2 = Except.error e ∧
      statusOf (investigate env mid jid jobs).1 jid = some "failed" ∧
      errorOf (investigate env mid jid jobs).1 jid = some (some e)) := by
  obtain ⟨e1, e2, e3⟩ := env
  cases e1 with
  | error e =>
    right
    refine ⟨e, rfl, ?_⟩
    have h := failJob_spec
      (updateJobStep (setJob jobs jid
        { status := "running",
          steps := pendingSteps
            ["tavily_extract", "yutori_research", "neo4j_update"],
          result := none, error := none }) jid "tavily_extract" "running" false)
      jid e "running"
      (by simp only [statusOf_updateJobStep, statusOf_setJob])
    exact h
  | ok u1 =>
    cases e2 with
    | error e =>
      right
      refine ⟨e, rfl, ?_⟩
      apply failJob_spec _ _ _ "running"
      simp only [statusOf_updateJobStep, statusOf_setJob]
    | ok u2 =>
      cases e3 with
      | error e =>
        right
        refine ⟨e, rfl, ?_⟩
        apply failJob_spec _ _ _ "running"
        simp only [statusOf_updateJobStep, statusOf_setJob]
      | ok u3 =>
        left
        refine ⟨rfl, ?_⟩
        apply statusOf_completeJob _ _ _ "running"
        simp only [statusOf_updateJobStep, statusOf_setJob]

/-- Outcome analysis of a `remediate` run: the three external-collaborator
calls have fallbacks, so only the awaited sleep before the store step can
reach the outer handler. -/
lemma remediate_spec (env : RemEnv) (mid bid jid : String) (jobs : Jobs) :
    ((∃ f, (remediate env mid bid jid jobs).2 = Except.ok f) ∧
      statusOf (remediate env mid bid jid jobs).1 jid = some "completed") ∨
    (∃ e, (remediate env mid bid jid jobs).2 = Except.error e ∧
      statusOf (remediate env mid bid jid jobs).1 jid = some "failed" ∧
      errorOf (remediate env mid bid jid jobs).1 jid = some (some e)) := by
  obtain ⟨e0, e1, e2, e3⟩ := env
  cases e3 with
  | error e =>
    right
    refine ⟨e, ?_, ?_⟩
    · cases e1 <;> cases e2 <;> rfl
    · cases e1 <;> cases e2 <;>
        (apply failJob_spec _ _ _ "running"
         simp only [statusOf_updateJobStep, statusOf_setJob])
  | ok u3 =>
    left
    constructor
    · cases e1 <;> cases e2 <;> exact ⟨_, rfl⟩
    · cases e1 <;> cases e2 <;>
        (apply statusOf_completeJob _ _ _ "running"
         simp only [statusOf_updateJobStep, statusOf_setJob])

/-- C4: for every run of each of the three pipeline jobs, once the
asynchronous operation settles — whether it returns normally or an
exception is raised — polling the registered job id reports status
"completed" or "failed", never "running". -/
theorem c4_job_completion_guarantee :
    (∀ (env : ProcEnv) (d : MentionData) (jid : String) (jobs : Jobs)
        (g : GraphState),
      statusOf (process_mention env d jid jobs g).1 jid = some "completed" ∨
      statusOf (process_mention env d jid jobs g).1 jid = some "failed") ∧
    (∀ (env : InvEnv) (mid jid : String) (jobs : Jobs),
      statusOf (investigate env mid jid jobs).1 jid = some "completed" ∨
      statusOf (investigate env mid jid jobs).1 jid = some "failed") ∧
    (∀ (env : RemEnv) (mid bid jid : String) (jobs : Jobs),
      statusOf (remediate env mid bid jid jobs).1 jid = some "completed" ∨
      statusOf (remediate env mid bid jid jobs).1 jid = some "failed") := by
  refine ⟨?_, ?_, ?_⟩
  · intro env d jid jobs g
    exact Or.inl (process_mention_spec env d jid jobs g).1
  · intro env mid jid jobs
    rcases investigate_spec env mid jid jobs with ⟨-, h⟩ | ⟨e, -, h, -⟩
    · exact Or.inl h
    · exact Or.inr h
  · intro env mid bid jid jobs
    rcases remediate_spec env mid bid jid jobs with ⟨-, h⟩ | ⟨e, -, h, -⟩
    · exact Or.inl h
    · exact Or.inr h

/-- C9 counterexample: a failing pipeline job does raise out of the
pipeline call.  An `investigate` run whose first awaited operation raises
"boom" has coroutine outcome `Except.error "boom"` — the exception
propagates out of the pipeline coroutine (it is re-raised after the
job record is marked failed). -/
theorem c9_error_containment_counterexample :
    (investigate ⟨Except.error "boom", Except.ok (), Except.ok ()⟩
      "m1" "j1" []).2 = Except.error "boom" ∧
    statusOf (investigate ⟨Except.error "boom", Except.ok (), Except.ok ()⟩
      "m1" "j1" []).1 "j1" = some "failed" := by
  exact ⟨rfl, rfl⟩

/-- C9 amended: a failing pipeline run captures its error on the job
record (status "failed", error string) before the exception is re-raised
out of the pipeline coroutine; `process_mention` itself never raises
(both awaited calls have fallbacks).  The HTTP dispatcher schedules the
pipeline as a background task and answers immediately with the job id and
status "queued" regardless of how the run will fare, so it observes
failure only by polling the job record. -/
theorem c9_error_capture_amended :
    (∀ (env : ProcEnv) (d : MentionData) (jid : String) (jobs : Jobs)
        (g : GraphState),
      ∃ f, (process_mention env d jid jobs g).2.2 = Except.ok f) ∧
    (∀ (env : InvEnv) (mid jid : String) (jobs : Jobs) (e : String),
      (investigate env mid jid jobs).2 = Except.error e →
      statusOf (investigate env mid jid jobs).1 jid = some "failed" ∧
      errorOf (investigate env mid jid jobs).1 jid = some (some e)) ∧
    (∀ (env : RemEnv) (mid bid jid : String) (jobs : Jobs) (e : String),
      (remediate env mid bid jid jobs).2 = Except.error e →
      statusOf (remediate env mid bid jid jobs).1 jid = some "failed" ∧
      errorOf (remediate env mid bid jid jobs).1 jid = some (some e)) ∧
    (∀ (md : Option MentionData) (mid : Option String) (jid : String),
      (run_pipeline md mid jid).1 = ⟨jid, "queued"⟩) := by
  refine ⟨?_, ?_, ?_, ?_⟩
  · intro env d jid jobs g
    exact (process_mention_spec env d jid jobs g).2
  · intro env mid jid jobs e he
    rcases investigate_spec env mid jid jobs with ⟨hok, -⟩ | ⟨e', he', h1, h2⟩
    · rw [he] at hok; exact absurd hok (by simp)
    · rw [he] at he'
      obtain rfl : e' = e := by
        injection he'.symm
      exact ⟨h1, h2⟩
  · intro env mid bid jid jobs e he
    rcases remediate_spec env mid bid jid jobs with ⟨⟨f, hok⟩, -⟩ | ⟨e', he', h1, h2⟩
    · rw [he] at hok; exact absurd hok (by simp)
    · rw [he] at he'
      obtain rfl : e' = e := by
        injection he'.symm
      exact ⟨h1, h2⟩
  · intro md mid jid
    rfl

/-- Witness for C9 amended: a remediate run whose awaited sleep raises
"db down" has the error captured on the job record. -/
theorem c9_error_capture_amended_witness :
    statusOf (remediate
      ⟨Except.ok (), Except.ok ⟨some "s"⟩, Except.ok ⟨some "t"⟩,
       Except.error "db down"⟩ "m2" "acme" "j2" []).1 "j2" = some "failed" ∧
    errorOf (remediate
      ⟨Except.ok (), Except.ok ⟨some "s"⟩, Except.ok ⟨some "t"⟩,
       Except.error "db down"⟩ "m2" "acme" "j2" []).1 "j2" =
      some (some "db down") :=
  c9_error_capture_amended.2.2.1
    ⟨Except.ok (), Except.ok ⟨some "s"⟩, Except.ok ⟨some "t"⟩,
     Except.error "db down"⟩ "m2" "acme" "j2" [] "db down" rfl

/-- C1: with the evaluator returning accuracy 0.5 for mention data
{brand_id: "acme", content: "claim text"}, `process_mention` completes
with severity "CRITICAL", alert_created = true and
auto_remediate_queued = true — but the graph store is left entirely
unchanged: the neo4j_store step body is `pass`, so no Mention node and no
ABOUT edge are created, contrary to the claim (and to the method's own
docstring step "4. Store in Neo4j"). -/
theorem c1_process_mention_no_graph_write :
    ∀ (jid : String) (jobs : Jobs) (g : GraphState),
      (process_mention ⟨Except.ok ⟨some (1/2)⟩, Except.ok ()⟩
        ⟨none, some "acme", some "claim text"⟩ jid jobs g).2.1 = g ∧
      (process_mention ⟨Except.ok ⟨some (1/2)⟩, Except.ok ()⟩
        ⟨none, some "acme", some "claim text"⟩ jid jobs g).2.2 =
        Except.ok ⟨none, "CRITICAL", 1/2, true, true⟩ := by
  intro jid jobs g
  have hsev : scoreSeverity ((1 : ℚ)/2) = "CRITICAL" := by
    norm_num [scoreSeverity]
  constructor
  · rfl
  · dsimp only [process_mention]
    rw [show (⟨some (1/2)⟩ : EvalRes).accuracy.getD 1 = (1 : ℚ)/2 from rfl,
      hsev]
    rfl

/-- Test graph for C8: brand "acme" with a single mention of accuracy 85
(well above the inaccuracy threshold 70) and no sources. -/
def c8graph : GraphState :=
  { brands := [⟨"acme", "Acme"⟩], platforms := ["chatgpt"],
    mentions := [⟨"m1", "c", 85, true, "low", "t"⟩],
    sources := [], corrections := [],
    about := [("m1", "acme")], found_on := [("m1", "chatgpt")],
    sourced_from := [], feeds := [], corrects := [], for_brand := [] }

/-- C8: the threats endpoint is supposed to return exactly the mentions
with accuracy below 70 ("Return inaccurate mentions as threat alerts"),
but its Cypher `WHERE m.accuracy_score < 70` is attached to the preceding
`OPTIONAL MATCH` on sources, so it only nullifies the optional source
binding and never filters out a mention: a mention of accuracy 85 — not
below 70 — is returned in the threats list. -/
theorem c8_threats_filter_failure :
    (get_brand_threats c8graph "acme" 50).map (·.id) = ["m1"] ∧
    ¬ ((85 : ℚ) < 70) := by
  refine ⟨?_, by norm_num⟩
  have hrows : threatRows c8graph "acme" 50 =
      [⟨⟨"m1", "c", 85, true, "low", "t"⟩, "chatgpt", []⟩] := by
    have hpairs : brandMentionPlatformRows c8graph "acme" =
        [(⟨"m1", "c", 85, true, "low", "t"⟩, "chatgpt")] := by decide
    unfold threatRows
    dsimp only
    rw [hpairs, List.map_cons, List.map_nil]
    dsimp only
    rw [if_neg (by norm_num : ¬ ((85 : ℚ) < 70))]
    rw [List.mergeSort_singleton]
    rfl
  unfold get_brand_threats
  rw [hrows]
  rfl

end BrandGuard
